import Mathlib

/-!
Shallow embedding of the Tiki product-crawler core
(`src/tiki_crawler.py`, `src/crawl_stats.py`, `src/file_handler.py`,
`src/deduplication.py`) and proofs about its specified behaviour.

Strings are modelled by Lean `String` (lists of characters), machine
integers by `Nat`/`Int`, Python `None`-able JSON scalars by the `PVal`
type below, and the event loop's I/O by explicit outcome oracles and
state passing.
-/

/-- ASCII whitespace, as matched by the source's `\s` regex class and by
`str.strip`/`str.split` on the ASCII plane. -/
def isWS (c : Char) : Bool :=
  c = ' ' || c = '\t' || c = '\n' || c = '\r' || c = '\x0b' || c = '\x0c'

/-- Scanner for `re.sub(r"<[^>]+>", "", text)`.  `acc = some buf` means the
scan sits inside a candidate tag: a `<` was seen and `buf` (reversed) holds
the non-`>` characters read since.  A closing `>` after at least one such
character deletes the whole candidate; `<>` and an unclosed `<` are emitted
verbatim, exactly as the regex leaves them unmatched. -/
def stripTagsAux : Option (List Char) → List Char → List Char
  | none, [] => []
  | some buf, [] => '<' :: buf.reverse
  | none, c :: rest =>
    if c = '<' then stripTagsAux (some []) rest
    else c :: stripTagsAux none rest
  | some buf, c :: rest =>
    if c = '>' then
      if buf.isEmpty then '<' :: '>' :: stripTagsAux none rest
      else stripTagsAux none rest
    else stripTagsAux (some (c :: buf)) rest

/-- `re.sub(r"<[^>]+>", "", text)` over the character list. -/
def stripTags (l : List Char) : List Char :=
  stripTagsAux none l

/-- Scanner for `re.sub(r"\s+", " ", text)`: `inRun` records whether the
previous character was part of a whitespace run already replaced by `' '`. -/
def collapseAux : Bool → List Char → List Char
  | _, [] => []
  | inRun, c :: rest =>
    if isWS c then
      if inRun then collapseAux true rest
      else ' ' :: collapseAux true rest
    else c :: collapseAux false rest

/-- `re.sub(r"\s+", " ", text)`: replace every maximal run of whitespace
by a single space. -/
def collapseWS (l : List Char) : List Char :=
  collapseAux false l

/-- Python `str.strip()`: remove leading and trailing whitespace. -/
def pyStrip (l : List Char) : List Char :=
  ((l.dropWhile isWS).reverse.dropWhile isWS).reverse

/-- `TikiCrawler.clean_description` (tiki_crawler.py lines 60-66): empty
for a falsy input, otherwise strip tags, collapse whitespace runs, strip
the ends. -/
def clean_description (text : Option String) : String :=
  match text with
  | none => ""
  | some s => if s = "" then "" else String.mk (pyStrip (collapseWS (stripTags s.data)))

example : clean_description (some "<p>hello   world </p>") = "hello world" := by decide
example : clean_description (some "a<b<c>d") = "ad" := by decide
example : clean_description none = "" := by rfl

/-- Adjacent characters are never both whitespace. -/
def NoWSRun (a b : Char) : Prop := ¬(isWS a = true ∧ isWS b = true)

lemma head?_collapseAux_true (l : List Char) :
    ∀ c, (collapseAux true l).head? = some c → isWS c = false := by
  induction l with
  | nil => intro c h; simp [collapseAux] at h
  | cons x rest ih =>
    intro c h
    by_cases hx : isWS x = true
    · rw [collapseAux, if_pos hx] at h
      exact ih c h
    · rw [collapseAux, if_neg hx] at h
      simp only [List.head?_cons, Option.some.injEq] at h
      subst h
      simpa using hx

lemma chain'_collapseAux (l : List Char) :
    ∀ b, List.Chain' NoWSRun (collapseAux b l) := by
  induction l with
  | nil => intro b; simp [collapseAux]
  | cons x rest ih =>
    intro b
    by_cases hx : isWS x = true
    · cases b with
      | true => rw [collapseAux, if_pos hx]; exact ih true
      | false =>
        rw [collapseAux, if_pos hx, if_neg (by decide)]
        rw [List.chain'_cons']
        refine ⟨?_, ih true⟩
        intro y hy
        have := head?_collapseAux_true rest y hy
        simp [NoWSRun, this]
    · rw [collapseAux, if_neg hx]
      rw [List.chain'_cons']
      refine ⟨?_, ih false⟩
      intro y _hy
      simp [NoWSRun, hx]

lemma head?_dropWhile_isWS (l : List Char) :
    ∀ c, (l.dropWhile isWS).head? = some c → isWS c = false := by
  induction l with
  | nil => intro c h; simp at h
  | cons x rest ih =>
    intro c h
    by_cases hx : isWS x = true
    · rw [List.dropWhile_cons, if_pos hx] at h
      exact ih c h
    · rw [List.dropWhile_cons, if_neg hx] at h
      simp only [List.head?_cons, Option.some.injEq] at h
      subst h
      simpa using hx

lemma chain'_of_reverse {l : List Char} (h : List.Chain' NoWSRun l.reverse) :
    List.Chain' NoWSRun l := by
  have h2 : List.Chain' (flip NoWSRun) l := List.chain'_reverse.mp h
  exact h2.imp (fun a b hab => by simp only [flip, NoWSRun] at hab ⊢; tauto)

lemma pyStrip_head (l : List Char) :
    ∀ c, (pyStrip l).head? = some c → isWS c = false := by
  intro c h
  unfold pyStrip at h
  set t := l.dropWhile isWS with ht
  -- pyStrip l is a prefix of t
  obtain ⟨r, hr⟩ : (t.reverse.dropWhile isWS) <:+ t.reverse := List.dropWhile_suffix _
  have hpre : t = (t.reverse.dropWhile isWS).reverse ++ r.reverse := by
    have := congrArg List.reverse hr
    simpa [List.reverse_append] using this.symm
  apply head?_dropWhile_isWS l c
  rw [← ht, hpre]
  rcases hmem : (t.reverse.dropWhile isWS).reverse with _ | ⟨a, as⟩
  · rw [hmem] at h; simp at h
  · rw [hmem] at h
    simp only [List.head?_cons, Option.some.injEq] at h
    simp [h]

lemma pyStrip_last (l : List Char) :
    ∀ c, (pyStrip l).getLast? = some c → isWS c = false := by
  intro c h
  unfold pyStrip at h
  rw [List.getLast?_reverse] at h
  exact head?_dropWhile_isWS _ c h

lemma pyStrip_chain' {l : List Char} (h : List.Chain' NoWSRun l) :
    List.Chain' NoWSRun (pyStrip l) := by
  unfold pyStrip
  apply chain'_of_reverse
  rw [List.reverse_reverse]
  apply List.Chain'.suffix _ (List.dropWhile_suffix _)
  have h1 : List.Chain' NoWSRun (l.dropWhile isWS) :=
    List.Chain'.suffix h (List.dropWhile_suffix _)
  exact List.chain'_reverse.mpr (h1.imp (fun a b hab => by
    simp only [flip, NoWSRun] at hab ⊢; tauto))

/-- C10. `clean_description` always yields a string with no leading or
trailing whitespace and no two adjacent whitespace characters, and yields
`""` for a `None` or empty input. -/
theorem clean_description_spec (text : Option String) :
    ((text = none ∨ text = some "") → clean_description text = "") ∧
    (∀ c, (clean_description text).data.head? = some c → isWS c = false) ∧
    (∀ c, (clean_description text).data.getLast? = some c → isWS c = false) ∧
    List.Chain' NoWSRun (clean_description text).data := by
  match text with
  | none =>
    refine ⟨fun _ => rfl, ?_, ?_, ?_⟩ <;> simp [clean_description]
  | some s =>
    by_cases hs : s = ""
    · subst hs
      refine ⟨fun _ => rfl, ?_, ?_, ?_⟩ <;> simp [clean_description]
    · have hdata : (clean_description (some s)).data
          = pyStrip (collapseWS (stripTags s.data)) := by
        simp [clean_description, hs]
      refine ⟨fun hc => ?_, ?_, ?_, ?_⟩
      · rcases hc with hc | hc
        · exact absurd hc (by simp)
        · exact absurd hc (by simp [hs])
      · rw [hdata]; exact pyStrip_head _
      · rw [hdata]; exact pyStrip_last _
      · rw [hdata]
        exact pyStrip_chain' (chain'_collapseAux _ false)

/-- Witness for C10 at concrete inputs. -/
theorem clean_description_spec_witness :
    clean_description none = "" ∧
    List.Chain' NoWSRun (clean_description (some "<b>a</b>   b\t")).data := by
  refine ⟨(clean_description_spec none).1 (Or.inl rfl),
    (clean_description_spec (some "<b>a</b>   b\t")).2.2.2⟩

/-- A Python JSON scalar/array value as held in a payload field.
`PVal.none` models both an absent key (`dict.get` default) and JSON `null`. -/
inductive PVal where
  | none
  | str (s : String)
  | num (n : Int)
  | list (items : List PVal)

/-- Python truthiness of a modelled value (`if not product_data.get(field)`). -/
def pyTruthy : PVal → Bool
  | PVal.none => false
  | PVal.str s => s != ""
  | PVal.num n => n != 0
  | PVal.list items => !items.isEmpty

mutual
/-- Python `repr` of a modelled value. -/
def pyRepr : PVal → String
  | PVal.none => "None"
  | PVal.str s => "\x27" ++ s ++ "\x27"
  | PVal.num n => toString n
  | PVal.list items => "[" ++ pyReprList items ++ "]"
/-- Comma-separated `repr`s of the members of a list value. -/
def pyReprList : List PVal → String
  | [] => ""
  | [v] => pyRepr v
  | v :: rest => pyRepr v ++ ", " ++ pyReprList rest
end

/-- Python `str` of a modelled value. -/
def pyStr : PVal → String
  | PVal.str s => s
  | v => pyRepr v

/-- `pat.isPrefixOf` probed at every position of the scanned list: the
substring test behind Python's `in` operator. -/
def subAux (pat : List Char) : List Char → Bool
  | [] => pat.isEmpty
  | c :: rest => pat.isPrefixOf (c :: rest) || subAux pat rest

/-- Python `pat in s` for strings. -/
def containsSub (s pat : String) : Bool :=
  subAux pat.data s.data

/-- Python `str.lower()` (ASCII plane). -/
def pyLower (s : String) : String :=
  String.mk (s.data.map Char.toLower)

/-- Python `str(x)` for an optional string (`str(None) = "None"`). -/
def pyStrOpt : Option String → String
  | Option.none => "None"
  | some s => s

/-- Scanner for Python's no-argument `str.split()`: split on whitespace
runs, dropping empty tokens.  `acc = some tok` holds the (reversed)
characters of the token being read. -/
def wsplitAux : Option (List Char) → List Char → List (List Char)
  | Option.none, [] => []
  | some tok, [] => [tok.reverse]
  | Option.none, c :: rest =>
    if isWS c then wsplitAux Option.none rest
    else wsplitAux (some [c]) rest
  | some tok, c :: rest =>
    if isWS c then tok.reverse :: wsplitAux Option.none rest
    else wsplitAux (some (c :: tok)) rest

/-- Python `s.split()` over the character list. -/
def pySplitList (l : List Char) : List (List Char) :=
  wsplitAux Option.none l

/-- The error-kind classification applied to `last_error` after the retry
loop is exhausted (`TikiCrawler.fetch_product`, tiki_crawler.py lines
120-123):
`error_code = "TIMEOUT" if "timeout" in str(last_error).lower() else "ERROR"`,
then overridden by the second whitespace token of the message whenever the
message contains `"HTTP"` (`"HTTP_ERROR"` if there is no second token). -/
def classify_error (last_error : Option String) : String :=
  let le := pyStrOpt last_error
  let base := if containsSub (pyLower le) "timeout" then "TIMEOUT" else "ERROR"
  if containsSub le "HTTP" then
    match pySplitList le.data with
    | _ :: t :: _ => String.mk t
    | _ => "HTTP_ERROR"
  else base

example : classify_error (some "HTTP 500") = "500" := by decide
example : classify_error (some "Request timeout") = "TIMEOUT" := by decide
example : classify_error (some "boom") = "ERROR" := by decide
example : classify_error Option.none = "ERROR" := by decide

/-- A status-like token: nonempty and all digits.  Modelled from the
spec's words for claim C5 ("an HTTP status-like token", e.g. `"500"`). -/
def statusLikeTok (t : List Char) : Bool :=
  !t.isEmpty && t.all Char.isDigit

/-- The error-kind assignment exactly as the spec words it (claim C5):
the status-like token carried by the message when it carries one, else
`TIMEOUT` when the message indicates a timeout, else `ERROR`.  This is the
spec-side definition to be compared against `classify_error`. -/
def spec_error_kind (msg : String) : String :=
  match (pySplitList msg.data).find? statusLikeTok with
  | some t => String.mk t
  | Option.none =>
    if containsSub (pyLower msg) "timeout" then "TIMEOUT" else "ERROR"

lemma wsplitAux_some_all_nonws (l : List Char) :
    ∀ tok, (∀ c ∈ l, isWS c = false) → wsplitAux (some tok) l = [tok.reverse ++ l] := by
  induction l with
  | nil => intro tok _; simp [wsplitAux]
  | cons c rest ih =>
    intro tok h
    have hc : isWS c = false := h c (List.mem_cons_self c rest)
    rw [wsplitAux, if_neg (by simp [hc])]
    rw [ih (c :: tok) (fun x hx => h x (List.mem_cons_of_mem c hx))]
    simp

lemma pySplitList_http (s : String) (h1 : s.data ≠ [])
    (h2 : ∀ c ∈ s.data, isWS c = false) :
    pySplitList ("HTTP " ++ s).data = ["HTTP".data, s.data] := by
  have hdat : ("HTTP " ++ s).data = 'H' :: 'T' :: 'T' :: 'P' :: ' ' :: s.data := rfl
  rcases hs : s.data with _ | ⟨c, rest⟩
  · exact absurd hs h1
  · have hc : isWS c = false := h2 c (by rw [hs]; exact List.mem_cons_self c rest)
    have hrest : ∀ x ∈ rest, isWS x = false := fun x hx =>
      h2 x (by rw [hs]; exact List.mem_cons_of_mem c hx)
    rw [pySplitList, hdat, hs]
    rw [wsplitAux, if_neg (by decide)]
    rw [wsplitAux, if_neg (by decide)]
    rw [wsplitAux, if_neg (by decide)]
    rw [wsplitAux, if_neg (by decide)]
    rw [wsplitAux, if_pos (by decide)]
    rw [wsplitAux, if_neg (by simp [hc])]
    rw [wsplitAux_some_all_nonws rest [c] hrest]
    rfl

lemma containsSub_http (s : String) :
    containsSub ("HTTP " ++ s) "HTTP" = true := by
  have hdat : ("HTTP " ++ s).data = 'H' :: 'T' :: 'T' :: 'P' :: ' ' :: s.data := rfl
  rw [containsSub, hdat]
  rw [subAux]
  simp [List.isPrefixOf]

lemma string_mk_data (s : String) : String.mk s.data = s := rfl

lemma wsplitAux_tokens_ne_nil (l : List Char) :
    ∀ acc, (∀ tok, acc = some tok → tok ≠ []) →
      ∀ t ∈ wsplitAux acc l, t ≠ [] := by
  induction l with
  | nil =>
    intro acc hacc t ht
    match acc with
    | Option.none => simp [wsplitAux] at ht
    | some tok =>
      simp [wsplitAux] at ht
      subst ht
      simpa using hacc tok rfl
  | cons c rest ih =>
    intro acc hacc t ht
    match acc with
    | Option.none =>
      rw [wsplitAux] at ht
      by_cases hc : isWS c = true
      · rw [if_pos hc] at ht
        exact ih Option.none (by intro tok h; cases h) t ht
      · rw [if_neg hc] at ht
        exact ih (some [c]) (by intro tok h; cases h; simp) t ht
    | some tok =>
      rw [wsplitAux] at ht
      by_cases hc : isWS c = true
      · rw [if_pos hc] at ht
        rcases List.mem_cons.mp ht with h | h
        · subst h
          simpa using hacc tok rfl
        · exact ih Option.none (by intro tok h; cases h) t h
      · rw [if_neg hc] at ht
        exact ih (some (c :: tok)) (by intro tok' h; cases h; simp) t ht

lemma classify_error_ne_empty (le : Option String) : classify_error le ≠ "" := by
  rw [classify_error]
  by_cases hc : containsSub (pyStrOpt le) "HTTP" = true
  · simp only [hc, if_true]
    rcases hsp : pySplitList (pyStrOpt le).data with _ | ⟨t0, rest0⟩
    · simp
    · rcases rest0 with _ | ⟨t1, rest1⟩
      · simp
      · simp only []
        have ht1 : t1 ≠ [] := by
          apply wsplitAux_tokens_ne_nil (pyStrOpt le).data Option.none
            (by intro tok h; cases h)
          rw [← pySplitList] at *
          rw [hsp]
          exact List.mem_cons_of_mem _ (List.mem_cons_self _ _)
        intro hcontra
        apply ht1
        have : (String.mk t1).data = ("" : String).data := by rw [hcontra]
        simpa using this
  · simp only [Bool.not_eq_true] at hc
    simp only [hc]
    by_cases ht : containsSub (pyLower (pyStrOpt le)) "timeout" = true <;>
      simp [ht]

/-- C5 counterexample: the last error `"HTTP connection refused"` carries
no status-like token and does not indicate a timeout, so the claim assigns
kind `"ERROR"`, but the code assigns the second whitespace token,
`"connection"`. -/
theorem classify_error_claim_counterexample :
    classify_error (some "HTTP connection refused") = "connection" ∧
    spec_error_kind "HTTP connection refused" = "ERROR" ∧
    classify_error (some "HTTP connection refused")
      ≠ spec_error_kind "HTTP connection refused" := by
  refine ⟨by decide, by decide, by decide⟩

/-- C5 (amended). The kind assigned from the last error: whenever the
message contains the substring `"HTTP"`, the kind is the message's second
whitespace-separated token — in particular the status token for messages
of the shape `"HTTP <status>"` produced by non-OK responses; otherwise
`"TIMEOUT"` when the lowercased message contains `"timeout"` (as the
timeout message `"Request timeout"` does); otherwise `"ERROR"`. -/
theorem classify_error_spec :
    (∀ s : String, s.data ≠ [] → (∀ c ∈ s.data, isWS c = false) →
      classify_error (some ("HTTP " ++ s)) = s) ∧
    classify_error (some "Request timeout") = "TIMEOUT" ∧
    (∀ m : String, containsSub m "HTTP" = false →
      containsSub (pyLower m) "timeout" = true →
      classify_error (some m) = "TIMEOUT") ∧
    (∀ m : String, containsSub m "HTTP" = false →
      containsSub (pyLower m) "timeout" = false →
      classify_error (some m) = "ERROR") := by
  refine ⟨?_, by decide, ?_, ?_⟩
  · intro s h1 h2
    rw [classify_error]
    simp only [pyStrOpt]
    rw [if_pos (containsSub_http s)]
    rw [pySplitList_http s h1 h2]
  · intro m hmt ht
    rw [classify_error]
    simp only [pyStrOpt]
    rw [if_neg (by simp [hmt]), if_pos ht]
  · intro m hm ht
    rw [classify_error]
    simp only [pyStrOpt]
    rw [if_neg (by simp [hm]), if_neg (by simp [ht])]

/-- Witness for C5's amended theorem at concrete inputs. -/
theorem classify_error_spec_witness :
    classify_error (some ("HTTP " ++ "500")) = "500" ∧
    classify_error (some "Request timeout") = "TIMEOUT" ∧
    classify_error (some "connection reset") = "ERROR" := by
  refine ⟨classify_error_spec.1 "500" (by decide) (by decide),
    classify_error_spec.2.1,
    classify_error_spec.2.2.2 "connection reset" (by decide) (by decide)⟩

/-- A failed-product detail record as appended by `CrawlStats.add_failure`
(crawl_stats.py lines 27-33) and persisted by the file handler. -/
structure FailureRecord where
  product_id : String
  error_code : String
  error_message : String
  timestamp : String
deriving DecidableEq

/-- `CrawlStats` (crawl_stats.py lines 8-16).  The two wall-clock float
fields (`start_time`, `end_time`) are read only by the human summary and
are omitted.  `error_codes` models the `defaultdict(int)`. -/
structure CrawlStats where
  total_products : Nat
  completed : Nat
  failed : Nat
  error_codes : String → Nat
  products_with_missing_fields : Nat
  failed_products : List FailureRecord

/-- `CrawlStats.add_success`. -/
def CrawlStats.add_success (s : CrawlStats) : CrawlStats :=
  { s with completed := s.completed + 1 }

/-- `CrawlStats.add_missing_fields`. -/
def CrawlStats.add_missing_fields (s : CrawlStats) : CrawlStats :=
  { s with products_with_missing_fields := s.products_with_missing_fields + 1 }

/-- `CrawlStats.add_failure` (crawl_stats.py lines 21-33).  At every call
site `status_code` and `product_id` are strings, so their Python truthiness
is `≠ ""`; `error_message` may be `None`; `now` stands for the value of
`datetime.now().isoformat()`. -/
def CrawlStats.add_failure (s : CrawlStats) (status_code : String)
    (product_id : String) (error_message : Option String) (now : String) :
    CrawlStats :=
  let s1 := { s with failed := s.failed + 1 }
  let s2 :=
    if status_code != "" then
      { s1 with error_codes := fun c =>
          if c = status_code then s1.error_codes c + 1 else s1.error_codes c }
    else s1
  if product_id != "" then
    { s2 with failed_products := s2.failed_products ++
        [{ product_id := product_id
           error_code := if status_code != "" then status_code else "UNKNOWN"
           error_message := error_message.getD ""
           timestamp := now }] }
  else s2

/-- The parsed JSON payload of a 200 response, projected to the fields the
crawler reads: the four scalar fields as Python values, the raw
`description` (a JSON string or absent/null), and the `base_url` values of
the `images` entries in source order. -/
structure RawProduct where
  id : PVal
  name : PVal
  url_key : PVal
  price : PVal
  description : Option String
  images : List PVal

/-- The normalized record built from a 200 response
(tiki_crawler.py lines 89-96). -/
structure ProductData where
  id : PVal
  name : PVal
  url_key : PVal
  price : PVal
  description : String
  images : PVal

/-- The `product_data` dict constructed in `fetch_product`
(tiki_crawler.py lines 89-96): `description` is cleaned, `images` is
always a Python list. -/
def build_product_data (data : RawProduct) : ProductData :=
  { id := data.id
    name := data.name
    url_key := data.url_key
    price := data.price
    description := clean_description data.description
    images := PVal.list data.images }

/-- `TikiCrawler.has_missing_fields` (tiki_crawler.py lines 68-77): the
required-field loop over `['id','name','url_key','price','description',
'images']`; `images` must be a list with at least one member, every other
field must be truthy (for the `description` string: nonempty). -/
def has_missing_fields (product_data : ProductData) : Bool :=
  !pyTruthy product_data.id ||
  !pyTruthy product_data.name ||
  !pyTruthy product_data.url_key ||
  !pyTruthy product_data.price ||
  product_data.description == "" ||
  (match product_data.images with
   | PVal.list items => items.isEmpty
   | _ => true)

/-- What one attempt's `session.get` (including reading/parsing the body)
yields: a response with a status and, when the status is 200, a payload;
an `asyncio.TimeoutError`; or any other exception with its message (this
also covers a 200 whose JSON parsing raises). -/
inductive AttemptOutcome where
  | response (status : Nat) (payload : RawProduct)
  | timeout
  | exc (msg : String)

/-- Whether the attempt takes the success branch (`resp.status == 200`). -/
def isOk : AttemptOutcome → Bool
  | AttemptOutcome.response status _ => status == 200
  | _ => false

/-- The `last_error` string recorded for a failing attempt
(tiki_crawler.py lines 104, 109, 113): `f"HTTP {resp.status}"`,
`"Request timeout"`, or `str(e)[:100]`. -/
def errMsgOf : AttemptOutcome → String
  | AttemptOutcome.response status _ => "HTTP " ++ toString status
  | AttemptOutcome.timeout => "Request timeout"
  | AttemptOutcome.exc msg => String.mk (msg.data.take 100)

/-- The observable result of one `fetch_product` invocation: the returned
record (or `None`), the updated tracker, the number of loop iterations
run, the backoff sleeps issued in order, and the error kind reported on
failure. -/
structure FetchResult where
  record : Option ProductData
  stats : CrawlStats
  attempts : Nat
  sleeps : List Nat
  error_code : Option String

/-- The retry loop of `TikiCrawler.fetch_product` (tiki_crawler.py lines
84-126), entered at iteration `attempt` with the accumulated `last_error`
and sleeps.  On a 200 response: update the missing-field counter if
applicable, count the success, return the record.  On any failure: record
the attempt's error, sleep `1 * (attempt + 1)` when attempts remain, and
retry; once exhausted, classify `last_error` and report the failure. -/
def fetch_go (outcomes : Nat → AttemptOutcome) (max_retries : Nat)
    (product_id : String) (now : String) (attempt : Nat)
    (last_error : Option String) (sleeps : List Nat) (stats : CrawlStats) :
    FetchResult :=
  if h : attempt < max_retries then
    match outcomes attempt with
    | AttemptOutcome.response status payload =>
      if status = 200 then
        let product_data := build_product_data payload
        let stats1 :=
          if has_missing_fields product_data then stats.add_missing_fields
          else stats
        { record := some product_data
          stats := stats1.add_success
          attempts := attempt + 1
          sleeps := sleeps
          error_code := Option.none }
      else
        fetch_go outcomes max_retries product_id now (attempt + 1)
          (some ("HTTP " ++ toString status))
          (if attempt < max_retries - 1 then sleeps ++ [1 * (attempt + 1)]
           else sleeps)
          stats
    | AttemptOutcome.timeout =>
      fetch_go outcomes max_retries product_id now (attempt + 1)
        (some "Request timeout")
        (if attempt < max_retries - 1 then sleeps ++ [1 * (attempt + 1)]
         else sleeps)
        stats
    | AttemptOutcome.exc msg =>
      fetch_go outcomes max_retries product_id now (attempt + 1)
        (some (String.mk (msg.data.take 100)))
        (if attempt < max_retries - 1 then sleeps ++ [1 * (attempt + 1)]
         else sleeps)
        stats
  else
    let error_code := classify_error last_error
    { record := Option.none
      stats := stats.add_failure error_code product_id last_error now
      attempts := attempt
      sleeps := sleeps
      error_code := some error_code }
termination_by max_retries - attempt
decreasing_by
  · omega
  · omega
  · omega

/-- `TikiCrawler.fetch_product` for one identifier, as a function of the
per-attempt outcomes. -/
def fetch_product (outcomes : Nat → AttemptOutcome) (max_retries : Nat)
    (product_id : String) (now : String) (stats : CrawlStats) : FetchResult :=
  fetch_go outcomes max_retries product_id now 0 Option.none [] stats

/-- The fresh tracker built by `CrawlStats.__init__`. -/
def CrawlStats.init : CrawlStats :=
  { total_products := 0
    completed := 0
    failed := 0
    error_codes := fun _ => 0
    products_with_missing_fields := 0
    failed_products := [] }

lemma fetch_go_exhausted (outcomes : Nat → AttemptOutcome)
    (max_retries : Nat) (pid now : String) (attempt : Nat)
    (le : Option String) (sleeps : List Nat) (stats : CrawlStats)
    (h : ¬ attempt < max_retries) :
    fetch_go outcomes max_retries pid now attempt le sleeps stats =
      { record := Option.none
        stats := stats.add_failure (classify_error le) pid le now
        attempts := attempt
        sleeps := sleeps
        error_code := some (classify_error le) } := by
  rw [fetch_go, dif_neg h]

lemma fetch_go_ok (outcomes : Nat → AttemptOutcome)
    (max_retries : Nat) (pid now : String) (attempt : Nat)
    (le : Option String) (sleeps : List Nat) (stats : CrawlStats)
    (payload : RawProduct) (hlt : attempt < max_retries)
    (ho : outcomes attempt = AttemptOutcome.response 200 payload) :
    fetch_go outcomes max_retries pid now attempt le sleeps stats =
      { record := some (build_product_data payload)
        stats := (if has_missing_fields (build_product_data payload) then
            stats.add_missing_fields else stats).add_success
        attempts := attempt + 1
        sleeps := sleeps
        error_code := Option.none } := by
  rw [fetch_go, dif_pos hlt, ho]
  rfl

lemma fetch_go_fail_step (outcomes : Nat → AttemptOutcome)
    (max_retries : Nat) (pid now : String) (attempt : Nat)
    (le : Option String) (sleeps : List Nat) (stats : CrawlStats)
    (hlt : attempt < max_retries)
    (hfail : isOk (outcomes attempt) = false) :
    fetch_go outcomes max_retries pid now attempt le sleeps stats =
      fetch_go outcomes max_retries pid now (attempt + 1)
        (some (errMsgOf (outcomes attempt)))
        (if attempt < max_retries - 1 then sleeps ++ [1 * (attempt + 1)]
         else sleeps)
        stats := by
  rw [fetch_go, dif_pos hlt]
  rcases ho : outcomes attempt with ⟨status, payload⟩ | _ | msg
  · rw [ho] at hfail
    simp only [isOk, beq_eq_false_iff_ne, ne_eq] at hfail
    dsimp only
    rw [if_neg hfail]
    simp [errMsgOf]
  · simp [errMsgOf]
  · simp [errMsgOf]

/-- C1. With `maxRetries = 3` and every attempt failing, `fetch_product`
runs exactly 3 attempts, sleeps between consecutive attempts with the
strictly increasing delays `1*(0+1), 1*(1+1)` (none after the final
attempt), returns no record, and — when every attempt is an HTTP 500 —
reports error kind `"500"`, tallying it once. -/
theorem fetch_product_retry_exhaustion (outcomes : Nat → AttemptOutcome)
    (pid now : String) (stats : CrawlStats)
    (hfail : ∀ i, isOk (outcomes i) = false) :
    (fetch_product outcomes 3 pid now stats).attempts = 3 ∧
    (fetch_product outcomes 3 pid now stats).sleeps
      = [1 * (0 + 1), 1 * (1 + 1)] ∧
    List.Chain' (· < ·) (fetch_product outcomes 3 pid now stats).sleeps ∧
    (fetch_product outcomes 3 pid now stats).record = Option.none ∧
    ((∀ i, i < 3 → ∃ p, outcomes i = AttemptOutcome.response 500 p) →
      (fetch_product outcomes 3 pid now stats).error_code = some "500" ∧
      (fetch_product outcomes 3 pid now stats).stats.error_codes "500"
        = stats.error_codes "500" + 1) := by
  have hrun : fetch_product outcomes 3 pid now stats
      = fetch_go outcomes 3 pid now 3 (some (errMsgOf (outcomes 2)))
          [1 * (0 + 1), 1 * (1 + 1)] stats := by
    rw [fetch_product,
      fetch_go_fail_step outcomes 3 pid now 0 Option.none [] stats
        (by omega) (hfail 0),
      fetch_go_fail_step outcomes 3 pid now 1 _ _ stats (by omega) (hfail 1),
      fetch_go_fail_step outcomes 3 pid now 2 _ _ stats (by omega) (hfail 2)]
    norm_num
  rw [hrun, fetch_go_exhausted outcomes 3 pid now 3 _ _ stats (by omega)]
  refine ⟨rfl, rfl, by simp, rfl, ?_⟩
  intro h500
  obtain ⟨p2, hp2⟩ := h500 2 (by omega)
  have hmsg : errMsgOf (outcomes 2) = "HTTP 500" := by
    rw [hp2]; rfl
  have hclass : classify_error (some (errMsgOf (outcomes 2))) = "500" := by
    rw [hmsg]; decide
  refine ⟨by rw [hclass], ?_⟩
  rw [hclass]
  simp only [CrawlStats.add_failure]
  split
  · simp
  · simp

/-- C8. On a 200 response the normalized record is returned for
persistence even when incomplete; the incomplete counter is incremented
exactly once, precisely when one of id, name, url_key, price, description
is empty/absent or the image list is empty; the success counter is
incremented. -/
theorem fetch_product_ok_incomplete (outcomes : Nat → AttemptOutcome)
    (max_retries : Nat) (pid now : String) (stats : CrawlStats)
    (d : RawProduct) (hmr : 0 < max_retries)
    (h0 : outcomes 0 = AttemptOutcome.response 200 d) :
    (fetch_product outcomes max_retries pid now stats).record
      = some (build_product_data d) ∧
    (fetch_product outcomes max_retries pid now stats).stats.products_with_missing_fields
      = stats.products_with_missing_fields
        + (if has_missing_fields (build_product_data d) then 1 else 0) ∧
    (fetch_product outcomes max_retries pid now stats).stats.completed
      = stats.completed + 1 ∧
    (has_missing_fields (build_product_data d) = true ↔
      (pyTruthy d.id = false ∨ pyTruthy d.name = false ∨
       pyTruthy d.url_key = false ∨ pyTruthy d.price = false ∨
       clean_description d.description = "" ∨ d.images = [])) := by
  rw [fetch_product, fetch_go_ok outcomes max_retries pid now 0 Option.none []
    stats d hmr h0]
  refine ⟨rfl, ?_, ?_, ?_⟩
  · by_cases hmiss : has_missing_fields (build_product_data d) = true
    · simp [hmiss, CrawlStats.add_success, CrawlStats.add_missing_fields]
    · simp [hmiss, CrawlStats.add_success]
  · by_cases hmiss : has_missing_fields (build_product_data d) = true
    · simp [hmiss, CrawlStats.add_success, CrawlStats.add_missing_fields]
    · simp [hmiss, CrawlStats.add_success]
  · simp only [has_missing_fields, build_product_data, Bool.or_eq_true,
      Bool.not_eq_true', beq_iff_eq, List.isEmpty_iff]
    tauto

/-- Witness for C8: a payload missing `price` is still returned, and the
incomplete counter moves from 0 to 1. -/
theorem fetch_product_ok_incomplete_witness :
    (fetch_product
        (fun _ => AttemptOutcome.response 200
          { id := PVal.num 1, name := PVal.str "n", url_key := PVal.str "u",
            price := PVal.none, description := some "d",
            images := [PVal.str "img"] })
        5 "1" "t0" CrawlStats.init).record
      = some (build_product_data
          { id := PVal.num 1, name := PVal.str "n", url_key := PVal.str "u",
            price := PVal.none, description := some "d",
            images := [PVal.str "img"] }) ∧
    (fetch_product
        (fun _ => AttemptOutcome.response 200
          { id := PVal.num 1, name := PVal.str "n", url_key := PVal.str "u",
            price := PVal.none, description := some "d",
            images := [PVal.str "img"] })
        5 "1" "t0" CrawlStats.init).stats.products_with_missing_fields
      = CrawlStats.init.products_with_missing_fields
        + (if has_missing_fields (build_product_data
          { id := PVal.num 1, name := PVal.str "n", url_key := PVal.str "u",
            price := PVal.none, description := some "d",
            images := [PVal.str "img"] }) then 1 else 0) ∧
    (fetch_product
        (fun _ => AttemptOutcome.response 200
          { id := PVal.num 1, name := PVal.str "n", url_key := PVal.str "u",
            price := PVal.none, description := some "d",
            images := [PVal.str "img"] })
        5 "1" "t0" CrawlStats.init).stats.completed
      = CrawlStats.init.completed + 1 ∧
    (has_missing_fields (build_product_data
          { id := PVal.num 1, name := PVal.str "n", url_key := PVal.str "u",
            price := PVal.none, description := some "d",
            images := [PVal.str "img"] }) = true ↔
      (pyTruthy (PVal.num 1) = false ∨ pyTruthy (PVal.str "n") = false ∨
       pyTruthy (PVal.str "u") = false ∨ pyTruthy PVal.none = false ∨
       clean_description (some "d") = "" ∨ [PVal.str "img"] = ([] : List PVal))) :=
  fetch_product_ok_incomplete _ 5 "1" "t0" CrawlStats.init _ (by omega) rfl

/-- Witness for C1 with every attempt an HTTP 500. -/
theorem fetch_product_retry_exhaustion_witness :
    (fetch_product (fun _ => AttemptOutcome.response 500
        { id := PVal.none, name := PVal.none, url_key := PVal.none,
          price := PVal.none, description := Option.none, images := [] })
        3 "9" "t0" CrawlStats.init).attempts = 3 ∧
    (fetch_product (fun _ => AttemptOutcome.response 500
        { id := PVal.none, name := PVal.none, url_key := PVal.none,
          price := PVal.none, description := Option.none, images := [] })
        3 "9" "t0" CrawlStats.init).sleeps = [1 * (0 + 1), 1 * (1 + 1)] ∧
    List.Chain' (· < ·)
      (fetch_product (fun _ => AttemptOutcome.response 500
        { id := PVal.none, name := PVal.none, url_key := PVal.none,
          price := PVal.none, description := Option.none, images := [] })
        3 "9" "t0" CrawlStats.init).sleeps ∧
    (fetch_product (fun _ => AttemptOutcome.response 500
        { id := PVal.none, name := PVal.none, url_key := PVal.none,
          price := PVal.none, description := Option.none, images := [] })
        3 "9" "t0" CrawlStats.init).record = Option.none ∧
    ((∀ i, i < 3 → ∃ p, (fun _ => AttemptOutcome.response 500
        { id := PVal.none, name := PVal.none, url_key := PVal.none,
          price := PVal.none, description := Option.none, images := [] }) i
          = AttemptOutcome.response 500 p) →
      (fetch_product (fun _ => AttemptOutcome.response 500
        { id := PVal.none, name := PVal.none, url_key := PVal.none,
          price := PVal.none, description := Option.none, images := [] })
        3 "9" "t0" CrawlStats.init).error_code = some "500" ∧
      (fetch_product (fun _ => AttemptOutcome.response 500
        { id := PVal.none, name := PVal.none, url_key := PVal.none,
          price := PVal.none, description := Option.none, images := [] })
        3 "9" "t0" CrawlStats.init).stats.error_codes "500"
        = CrawlStats.init.error_codes "500" + 1) :=
  fetch_product_retry_exhaustion _ "9" "t0" CrawlStats.init (fun _ => rfl)

lemma fetch_go_cases (outcomes : Nat → AttemptOutcome) (max_retries : Nat)
    (pid now : String) :
    ∀ (fuel attempt : Nat) (le : Option String) (sleeps : List Nat)
      (stats : CrawlStats), max_retries - attempt ≤ fuel →
      (∃ payload n sl,
        fetch_go outcomes max_retries pid now attempt le sleeps stats =
          { record := some (build_product_data payload)
            stats := (if has_missing_fields (build_product_data payload) then
                stats.add_missing_fields else stats).add_success
            attempts := n
            sleeps := sl
            error_code := Option.none }) ∨
      (∃ le2 n sl,
        fetch_go outcomes max_retries pid now attempt le sleeps stats =
          { record := Option.none
            stats := stats.add_failure (classify_error le2) pid le2 now
            attempts := n
            sleeps := sl
            error_code := some (classify_error le2) }) := by
  intro fuel
  induction fuel with
  | zero =>
    intro attempt le sleeps stats hfuel
    have hge : ¬ attempt < max_retries := by omega
    right
    exact ⟨le, attempt, sleeps,
      fetch_go_exhausted outcomes max_retries pid now attempt le sleeps stats hge⟩
  | succ fuel ih =>
    intro attempt le sleeps stats hfuel
    by_cases hlt : attempt < max_retries
    · by_cases hok : isOk (outcomes attempt) = true
      · rcases ho : outcomes attempt with ⟨status, payload⟩ | _ | msg <;>
          rw [ho] at hok <;> simp only [isOk, beq_iff_eq] at hok
        · subst hok
          left
          exact ⟨payload, attempt + 1, sleeps,
            fetch_go_ok outcomes max_retries pid now attempt le sleeps stats
              payload hlt ho⟩
        · exact absurd hok (by simp)
        · exact absurd hok (by simp)
      · rw [fetch_go_fail_step outcomes max_retries pid now attempt le sleeps
          stats hlt (by simpa using hok)]
        exact ih (attempt + 1) _ _ stats (by omega)
    · right
      exact ⟨le, attempt, sleeps,
        fetch_go_exhausted outcomes max_retries pid now attempt le sleeps
          stats hlt⟩

/-- C9. One `fetch_product` invocation, whatever the per-attempt outcomes,
always returns: either a record, with the completed count incremented and
no failure recorded — or no record, with the failed count incremented, the
(nonempty) error kind's tally incremented, and exactly one `FailureRecord`
carrying the current timestamp appended. -/
theorem fetch_product_outcome_dichotomy (outcomes : Nat → AttemptOutcome)
    (max_retries : Nat) (pid now : String) (stats : CrawlStats)
    (hpid : pid ≠ "") :
    (∃ r, (fetch_product outcomes max_retries pid now stats).record = some r ∧
      (fetch_product outcomes max_retries pid now stats).stats.completed
        = stats.completed + 1 ∧
      (fetch_product outcomes max_retries pid now stats).stats.failed
        = stats.failed ∧
      (fetch_product outcomes max_retries pid now stats).stats.failed_products
        = stats.failed_products) ∨
    ((fetch_product outcomes max_retries pid now stats).record = Option.none ∧
      ∃ code msg, code ≠ "" ∧
        (fetch_product outcomes max_retries pid now stats).error_code
          = some code ∧
        (fetch_product outcomes max_retries pid now stats).stats.failed
          = stats.failed + 1 ∧
        (fetch_product outcomes max_retries pid now stats).stats.error_codes code
          = stats.error_codes code + 1 ∧
        (fetch_product outcomes max_retries pid now stats).stats.completed
          = stats.completed ∧
        (fetch_product outcomes max_retries pid now stats).stats.failed_products
          = stats.failed_products ++
            [{ product_id := pid, error_code := code, error_message := msg,
               timestamp := now }]) := by
  rcases fetch_go_cases outcomes max_retries pid now max_retries 0 Option.none
      [] stats (by omega) with
    ⟨payload, n, sl, heq⟩ | ⟨le2, n, sl, heq⟩
  · left
    refine ⟨build_product_data payload, ?_, ?_, ?_, ?_⟩ <;>
      rw [fetch_product, heq] <;>
      by_cases hmiss : has_missing_fields (build_product_data payload) = true <;>
      simp [hmiss, CrawlStats.add_success, CrawlStats.add_missing_fields]
  · right
    have hcode : classify_error le2 ≠ "" := classify_error_ne_empty le2
    have hcodeb : (classify_error le2 != "") = true := by simpa using hcode
    have hpidb : (pid != "") = true := by simpa using hpid
    refine ⟨by rw [fetch_product, heq], classify_error le2, le2.getD "",
      hcode, ?_, ?_, ?_, ?_, ?_⟩ <;> rw [fetch_product, heq] <;>
      simp [CrawlStats.add_failure, hcodeb, hpidb]

/-- Witness for C9 at a concrete run that times out on every attempt. -/
theorem fetch_product_outcome_dichotomy_witness :
    (∃ r, (fetch_product (fun _ => AttemptOutcome.timeout) 2 "42" "t1"
        CrawlStats.init).record = some r ∧
      (fetch_product (fun _ => AttemptOutcome.timeout) 2 "42" "t1"
        CrawlStats.init).stats.completed = CrawlStats.init.completed + 1 ∧
      (fetch_product (fun _ => AttemptOutcome.timeout) 2 "42" "t1"
        CrawlStats.init).stats.failed = CrawlStats.init.failed ∧
      (fetch_product (fun _ => AttemptOutcome.timeout) 2 "42" "t1"
        CrawlStats.init).stats.failed_products
        = CrawlStats.init.failed_products) ∨
    ((fetch_product (fun _ => AttemptOutcome.timeout) 2 "42" "t1"
        CrawlStats.init).record = Option.none ∧
      ∃ code msg, code ≠ "" ∧
        (fetch_product (fun _ => AttemptOutcome.timeout) 2 "42" "t1"
          CrawlStats.init).error_code = some code ∧
        (fetch_product (fun _ => AttemptOutcome.timeout) 2 "42" "t1"
          CrawlStats.init).stats.failed = CrawlStats.init.failed + 1 ∧
        (fetch_product (fun _ => AttemptOutcome.timeout) 2 "42" "t1"
          CrawlStats.init).stats.error_codes code
          = CrawlStats.init.error_codes code + 1 ∧
        (fetch_product (fun _ => AttemptOutcome.timeout) 2 "42" "t1"
          CrawlStats.init).stats.completed = CrawlStats.init.completed ∧
        (fetch_product (fun _ => AttemptOutcome.timeout) 2 "42" "t1"
          CrawlStats.init).stats.failed_products
          = CrawlStats.init.failed_products ++
            [{ product_id := "42", error_code := code, error_message := msg,
               timestamp := "t1" }]) :=
  fetch_product_outcome_dichotomy (fun _ => AttemptOutcome.timeout) 2 "42" "t1"
    CrawlStats.init (by decide)

/-- The batch slicing of `TikiCrawler.crawl` (tiki_crawler.py lines
170-172): `for start in range(0, len(ids), batch_size)`, each batch being
`ids[start:start+batch_size]`. -/
def batchesOf (batch_size : Nat) (l : List α) : List (List α) :=
  if h : l.isEmpty = true ∨ batch_size = 0 then []
  else l.take batch_size :: batchesOf batch_size (l.drop batch_size)
termination_by l.length
decreasing_by
  rw [List.length_drop]
  rcases not_or.mp h with ⟨h1, h2⟩
  have h3 : 0 < l.length := by
    cases l with
    | nil => exact absurd rfl h1
    | cons a as => simp
  omega

/-- `FileHandler.save_batch` (file_handler.py lines 13-17): write the
records under key `batch_index + 1`, the `products_<n>.json` cell of the
output directory. -/
def fsUpdate (fs : Nat → Option (List ρ)) (k : Nat) (v : List ρ) :
    Nat → Option (List ρ) :=
  fun n => if n = k then some v else fs n

/-- The batch loop of `TikiCrawler.crawl` (tiki_crawler.py lines 170-199),
entered with the pending batches from 0-based index `idx`, the
`products_<n>.json` cells `fs` of the output directory, and the run's
fetch log.  A batch whose file `products_<idx+1>.json` exists is skipped
wholesale (no fetches, no write); otherwise every id of the batch is
fetched (`fetchOne` gives the per-identifier outcome of `fetch_batch`:
`some r` a successful record, `none` a failure recorded in the tracker),
the successful records are saved as the batch's file, and the batch's ids
join the fetch log. -/
def runBatches (fetchOne : String → Option ρ) :
    List (List String) → Nat → (Nat → Option (List ρ)) → List String →
    (Nat → Option (List ρ)) × List String
  | [], _idx, fs, log => (fs, log)
  | bids :: rest, idx, fs, log =>
    if (fs (idx + 1)).isSome then
      runBatches fetchOne rest (idx + 1) fs log
    else
      runBatches fetchOne rest (idx + 1)
        (fsUpdate fs (idx + 1) (bids.filterMap fetchOne))
        (log ++ bids)

lemma runBatches_preserves (fetchOne : String → Option ρ) :
    ∀ (batches : List (List String)) (idx : Nat)
      (fs : Nat → Option (List ρ)) (log : List String) (n : Nat)
      (c : List ρ), fs n = some c →
      (runBatches fetchOne batches idx fs log).1 n = some c := by
  intro batches
  induction batches with
  | nil => intro idx fs log n c h; exact h
  | cons bids rest ih =>
    intro idx fs log n c h
    rw [runBatches]
    by_cases hskip : (fs (idx + 1)).isSome = true
    · rw [if_pos hskip]
      exact ih (idx + 1) fs log n c h
    · rw [if_neg hskip]
      apply ih
      rw [fsUpdate]
      by_cases hn : n = idx + 1
      · subst hn
        rw [h] at hskip
        simp at hskip
      · simpa [hn] using h

lemma runBatches_log_mem (fetchOne : String → Option ρ) :
    ∀ (batches : List (List String)) (idx : Nat)
      (fs : Nat → Option (List ρ)) (log : List String) (pid : String),
      pid ∈ (runBatches fetchOne batches idx fs log).2 →
      pid ∈ log ∨ pid ∈ batches.flatten := by
  intro batches
  induction batches with
  | nil => intro idx fs log pid h; exact Or.inl h
  | cons bids rest ih =>
    intro idx fs log pid h
    rw [runBatches] at h
    by_cases hskip : (fs (idx + 1)).isSome = true
    · rw [if_pos hskip] at h
      rcases ih (idx + 1) fs log pid h with h2 | h2
      · exact Or.inl h2
      · exact Or.inr (by simp [List.mem_flatten] at h2 ⊢; tauto)
    · rw [if_neg hskip] at h
      rcases ih (idx + 1) _ (log ++ bids) pid h with h2 | h2
      · rcases List.mem_append.mp h2 with h3 | h3
        · exact Or.inl h3
        · exact Or.inr (by simp; exact Or.inl h3)
      · exact Or.inr (by simp [List.mem_flatten] at h2 ⊢; tauto)

lemma runBatches_files_mem (fetchOne : String → Option ρ) :
    ∀ (batches : List (List String)) (idx : Nat)
      (fs : Nat → Option (List ρ)) (log : List String) (n : Nat)
      (content : List ρ),
      (runBatches fetchOne batches idx fs log).1 n = some content →
      fs n = some content ∨
        ∃ b ∈ batches, content = b.filterMap fetchOne := by
  intro batches
  induction batches with
  | nil => intro idx fs log n content h; exact Or.inl h
  | cons bids rest ih =>
    intro idx fs log n content h
    rw [runBatches] at h
    by_cases hskip : (fs (idx + 1)).isSome = true
    · rw [if_pos hskip] at h
      rcases ih (idx + 1) fs log n content h with h2 | ⟨b, hb, hc⟩
      · exact Or.inl h2
      · exact Or.inr ⟨b, List.mem_cons_of_mem _ hb, hc⟩
    · rw [if_neg hskip] at h
      rcases ih (idx + 1) _ (log ++ bids) n content h with h2 | ⟨b, hb, hc⟩
      · rw [fsUpdate] at h2
        by_cases hn : n = idx + 1
        · subst hn
          have h3 : content = List.filterMap fetchOne bids := by
            simp at h2
            exact h2.symm
          exact Or.inr ⟨bids, List.mem_cons_self _ _, h3⟩
        · rw [if_neg hn] at h2
          exact Or.inl h2
      · exact Or.inr ⟨b, List.mem_cons_of_mem _ hb, hc⟩

lemma mem_getD_flatten {rest : List (List String)} {j : Nat} {pid : String}
    (h : pid ∈ rest.getD j []) : pid ∈ rest.flatten := by
  by_cases hj : j < rest.length
  · rw [List.getD_eq_getElem rest [] hj] at h
    exact List.mem_flatten.mpr ⟨rest[j], List.getElem_mem hj, h⟩
  · rw [List.getD_eq_default rest [] (by omega)] at h
    cases h

lemma runBatches_skipped_not_logged (fetchOne : String → Option ρ) :
    ∀ (batches : List (List String)) (idx : Nat)
      (fs : Nat → Option (List ρ)) (log : List String) (k : Nat)
      (c : List ρ),
      fs (idx + k + 1) = some c →
      batches.flatten.Nodup →
      (∀ pid ∈ batches.getD k [], pid ∉ log) →
      ∀ pid ∈ batches.getD k [],
        pid ∉ (runBatches fetchOne batches idx fs log).2 := by
  intro batches
  induction batches with
  | nil =>
    intro idx fs log k c _ _ _ pid hpid
    cases k <;> cases hpid
  | cons bids rest ih =>
    intro idx fs log k c hfs hnodup hlog pid hpid
    have hdisj : List.Disjoint bids rest.flatten :=
      (List.nodup_append.mp (by simpa using hnodup)).2.2
    have hnodup2 : rest.flatten.Nodup :=
      (List.nodup_append.mp (by simpa using hnodup)).2.1
    rw [runBatches]
    cases k with
    | zero =>
      have hpid2 : pid ∈ bids := hpid
      have hskip : (fs (idx + 1)).isSome = true := by
        rw [show idx + 0 + 1 = idx + 1 by omega] at hfs
        simp [hfs]
      rw [if_pos hskip]
      intro hmem
      rcases runBatches_log_mem fetchOne rest (idx + 1) fs log pid hmem with
        h2 | h2
      · exact hlog pid hpid h2
      · exact hdisj hpid2 h2
    | succ j =>
      have hpid2 : pid ∈ rest.getD j [] := hpid
      have hfs2 : fs (idx + 1 + j + 1) = some c := by
        rw [show idx + 1 + j + 1 = idx + (j + 1) + 1 by omega]
        exact hfs
      by_cases hskip : (fs (idx + 1)).isSome = true
      · rw [if_pos hskip]
        exact ih (idx + 1) fs log j c hfs2 hnodup2 (fun q hq => hlog q hq) pid
          hpid2
      · rw [if_neg hskip]
        apply ih (idx + 1) _ (log ++ bids) j c _ hnodup2 _ pid hpid2
        · rw [fsUpdate]
          have : ¬ idx + 1 + j + 1 = idx + 1 := by omega
          simpa [this] using hfs2
        · intro q hq
          intro hmem
          rcases List.mem_append.mp hmem with h3 | h3
          · exact hlog q hq h3
          · exact hdisj h3 (mem_getD_flatten hq)

lemma batchesOf_nil (b : Nat) : batchesOf b ([] : List α) = [] := by
  rw [batchesOf]
  simp

lemma ceil_div_step (b m : Nat) (hb : 0 < b) (hm : 0 < m) :
    (m - b + b - 1) / b + 1 = (m + b - 1) / b := by
  by_cases h : m ≤ b
  · have h1 : m - b + b - 1 = b - 1 := by omega
    have h2 : m + b - 1 = (m - 1) + b := by omega
    rw [h1, h2, Nat.add_div_right _ hb, Nat.div_eq_of_lt (by omega),
      Nat.div_eq_of_lt (by omega)]
  · have h1 : m - b + b - 1 = (m - 1 - b) + b := by omega
    have h2 : m + b - 1 = (m - 1) + b := by omega
    rw [h1, h2, Nat.add_div_right _ hb, Nat.add_div_right _ hb,
      Nat.div_eq_sub_div hb (by omega : b ≤ m - 1)]

lemma batchesOf_flatten (b : Nat) (hb : 0 < b) :
    ∀ l : List α, (batchesOf b l).flatten = l := by
  suffices h : ∀ n (l : List α), l.length = n → (batchesOf b l).flatten = l by
    intro l
    exact h l.length l rfl
  intro n
  induction n using Nat.strong_induction_on with
  | _ n ih =>
    intro l hl
    rcases l with _ | ⟨a, as⟩
    · rw [batchesOf_nil]; rfl
    · rw [batchesOf, dif_neg (by simp; omega)]
      rw [List.flatten_cons,
        ih ((a :: as).drop b).length
          (by rw [List.length_drop]; simp at hl ⊢; omega)
          ((a :: as).drop b) rfl,
        List.take_append_drop]

lemma batchesOf_length (b : Nat) (hb : 0 < b) :
    ∀ l : List α, (batchesOf b l).length = (l.length + b - 1) / b := by
  suffices h : ∀ n (l : List α), l.length = n →
      (batchesOf b l).length = (l.length + b - 1) / b by
    intro l
    exact h l.length l rfl
  intro n
  induction n using Nat.strong_induction_on with
  | _ n ih =>
    intro l hl
    rcases l with _ | ⟨a, as⟩
    · rw [batchesOf_nil]
      simp [Nat.div_eq_of_lt (by omega : b - 1 < b)]
    · rw [batchesOf, dif_neg (by simp; omega)]
      rw [List.length_cons,
        ih ((a :: as).drop b).length
          (by rw [List.length_drop]; simp at hl ⊢; omega)
          ((a :: as).drop b) rfl]
      rw [List.length_drop]
      exact ceil_div_step b (a :: as).length hb (by simp)

lemma batchesOf_sizes (b : Nat) (hb : 0 < b) :
    ∀ l : List α, ∀ batch ∈ batchesOf b l, batch ≠ [] ∧ batch.length ≤ b := by
  suffices h : ∀ n (l : List α), l.length = n →
      ∀ batch ∈ batchesOf b l, batch ≠ [] ∧ batch.length ≤ b by
    intro l
    exact h l.length l rfl
  intro n
  induction n using Nat.strong_induction_on with
  | _ n ih =>
    intro l hl batch hbatch
    rcases l with _ | ⟨a, as⟩
    · rw [batchesOf_nil] at hbatch; cases hbatch
    · rw [batchesOf, dif_neg (by simp; omega)] at hbatch
      rcases List.mem_cons.mp hbatch with h1 | h1
      · subst h1
        constructor
        · have : ((a :: as).take b).length = min b (a :: as).length := by
            rw [List.length_take]
          intro hcon
          rw [hcon] at this
          simp at this
          omega
        · rw [List.length_take]; omega
      · exact ih ((a :: as).drop b).length
          (by rw [List.length_drop]; simp at hl ⊢; omega)
          ((a :: as).drop b) rfl batch h1

lemma batchesOf_ne_nil_of_arg_ne_nil (b : Nat) {l : List α}
    (h : batchesOf b l ≠ []) : l ≠ [] := by
  intro hcon
  subst hcon
  exact h (batchesOf_nil b)

lemma batchesOf_full (b : Nat) (hb : 0 < b) :
    ∀ l : List α, ∀ i, i + 1 < (batchesOf b l).length →
      ((batchesOf b l).getD i []).length = b := by
  suffices h : ∀ n (l : List α), l.length = n →
      ∀ i, i + 1 < (batchesOf b l).length →
        ((batchesOf b l).getD i []).length = b by
    intro l
    exact h l.length l rfl
  intro n
  induction n using Nat.strong_induction_on with
  | _ n ih =>
    intro l hl i hi
    rcases l with _ | ⟨a, as⟩
    · rw [batchesOf_nil] at hi; simp at hi
    · rw [batchesOf, dif_neg (by simp; omega)] at hi ⊢
      cases i with
      | zero =>
        simp only [List.getD_cons_zero]
        rw [List.length_cons] at hi
        have hrest : batchesOf b ((a :: as).drop b) ≠ [] := by
          intro hcon
          rw [hcon] at hi
          simp at hi
        have hdrop : (a :: as).drop b ≠ [] :=
          batchesOf_ne_nil_of_arg_ne_nil b hrest
        have hlen : 0 < ((a :: as).drop b).length := List.length_pos.mpr hdrop
        rw [List.length_drop] at hlen
        rw [List.length_take]
        omega
      | succ j =>
        simp only [List.getD_cons_succ]
        rw [List.length_cons] at hi
        exact ih ((a :: as).drop b).length
          (by rw [List.length_drop]; simp at hl ⊢; omega)
          ((a :: as).drop b) rfl j (by omega)

lemma runBatches_writes (fetchOne : String → Option ρ) :
    ∀ (batches : List (List String)) (idx : Nat)
      (fs : Nat → Option (List ρ)) (log : List String),
      (∀ n, idx < n → fs n = Option.none) →
      ∀ k, k < batches.length →
        (runBatches fetchOne batches idx fs log).1 (idx + k + 1)
          = some ((batches.getD k []).filterMap fetchOne) := by
  intro batches
  induction batches with
  | nil => intro idx fs log _ k hk; simp at hk
  | cons bids rest ih =>
    intro idx fs log hfs k hk
    have hnone : fs (idx + 1) = Option.none := hfs (idx + 1) (by omega)
    rw [runBatches, if_neg (by simp [hnone])]
    cases k with
    | zero =>
      rw [show idx + 0 + 1 = idx + 1 by omega]
      apply runBatches_preserves
      rw [fsUpdate, if_pos rfl]
      rfl
    | succ j =>
      rw [show idx + (j + 1) + 1 = idx + 1 + j + 1 by omega]
      simp only [List.getD_cons_succ]
      apply ih (idx + 1) _ (log ++ bids) _ j
        (by rw [List.length_cons] at hk; omega)
      intro n hn
      rw [fsUpdate, if_neg (by omega)]
      exact hfs n (by omega)

/-- C7. For `0 < batchSize`, the pending list is partitioned into
`ceil(n/batchSize)` consecutive batches in original order, every batch
except possibly the last has exactly `batchSize` ids (all are nonempty and
no larger), and on a fresh output directory the loop persists 0-based
batch `k` under the key `k+1` (`products_<k+1>.json`) holding its
successful records. -/
theorem crawl_batch_partition (fetchOne : String → Option ρ) (b : Nat)
    (l : List String) (hb : 0 < b) :
    (batchesOf b l).length = (l.length + b - 1) / b ∧
    (batchesOf b l).flatten = l ∧
    (∀ i, i + 1 < (batchesOf b l).length →
      ((batchesOf b l).getD i []).length = b) ∧
    (∀ batch ∈ batchesOf b l, batch ≠ [] ∧ batch.length ≤ b) ∧
    (∀ k, k < (batchesOf b l).length →
      (runBatches fetchOne (batchesOf b l) 0 (fun _ => Option.none) []).1 (k + 1)
        = some (((batchesOf b l).getD k []).filterMap fetchOne)) := by
  refine ⟨batchesOf_length b hb l, batchesOf_flatten b hb l,
    batchesOf_full b hb l, batchesOf_sizes b hb l, ?_⟩
  intro k hk
  have := runBatches_writes fetchOne (batchesOf b l) 0 (fun _ => Option.none)
    [] (fun _ _ => rfl) k hk
  rwa [show 0 + k + 1 = k + 1 by omega] at this

/-- Witness for C7: 3 ids in batches of 2 give one batch of 2 and one of
1, written under keys 1 and 2 respectively. -/
theorem crawl_batch_partition_witness :
    (batchesOf 2 ["a", "b", "c"]).length = ((3 : Nat) + 2 - 1) / 2 ∧
    (batchesOf 2 ["a", "b", "c"]).flatten = ["a", "b", "c"] ∧
    (∀ i, i + 1 < (batchesOf 2 ["a", "b", "c"]).length →
      ((batchesOf 2 ["a", "b", "c"]).getD i []).length = 2) ∧
    (∀ batch ∈ batchesOf 2 ["a", "b", "c"], batch ≠ [] ∧ batch.length ≤ 2) ∧
    (∀ k, k < (batchesOf 2 ["a", "b", "c"]).length →
      (runBatches (fun pid => some pid) (batchesOf 2 ["a", "b", "c"]) 0
          (fun _ => Option.none) []).1 (k + 1)
        = some (((batchesOf 2 ["a", "b", "c"]).getD k []).filterMap
            (fun pid => some pid))) :=
  crawl_batch_partition (fun pid => some pid) 2 ["a", "b", "c"] (by omega)

/-- C3. A batch whose file `products_<k+1>.json` exists when the run
reaches it is skipped entirely: the file's contents survive the whole run
unchanged (a pre-existing BatchUnit is never overwritten), and — the
pending ids being distinct — none of the batch's ids is ever fetched. -/
theorem crawl_skips_existing_batch (fetchOne : String → Option ρ) (b : Nat)
    (pending : List String) (fs0 : Nat → Option (List ρ)) (k : Nat)
    (c : List ρ) (hb : 0 < b) (hexist : fs0 (k + 1) = some c) :
    (runBatches fetchOne (batchesOf b pending) 0 fs0 []).1 (k + 1) = some c ∧
    (pending.Nodup →
      ∀ pid ∈ (batchesOf b pending).getD k [],
        pid ∉ (runBatches fetchOne (batchesOf b pending) 0 fs0 []).2) := by
  constructor
  · exact runBatches_preserves fetchOne (batchesOf b pending) 0 fs0 [] (k + 1)
      c hexist
  · intro hnodup
    apply runBatches_skipped_not_logged fetchOne (batchesOf b pending) 0 fs0
      [] k c
    · rwa [show 0 + k + 1 = k + 1 by omega]
    · rwa [batchesOf_flatten b hb pending]
    · intro pid _ hcon
      cases hcon

/-- Witness for C3: with `products_1.json` already on disk, its contents
survive and the only pending id is never fetched. -/
theorem crawl_skips_existing_batch_witness :
    (runBatches (fun pid => some pid) (batchesOf 1 ["A"]) 0
        (fun n => if n = 1 then some ["old"] else Option.none) []).1 (0 + 1)
      = some ["old"] ∧
    (["A"].Nodup →
      ∀ pid ∈ (batchesOf 1 ["A"]).getD 0 [],
        pid ∉ (runBatches (fun pid => some pid) (batchesOf 1 ["A"]) 0
          (fun n => if n = 1 then some ["old"] else Option.none) []).2) :=
  crawl_skips_existing_batch (fun pid => some pid) 1 ["A"]
    (fun n => if n = 1 then some ["old"] else Option.none) 0 ["old"]
    (by omega) rfl

/-- `DeduplicationUtils.deduplicate_list` (deduplication.py lines 8-11):
`list(dict.fromkeys(items))`, keeping the first occurrence of each id in
order (`seen` is the key set built so far). -/
def deduplicate_aux (seen : List String) : List String → List String
  | [] => []
  | x :: rest =>
    if seen.contains x then deduplicate_aux seen rest
    else x :: deduplicate_aux (x :: seen) rest

/-- `DeduplicationUtils.deduplicate_list`: `list(dict.fromkeys(items))`. -/
def deduplicate_list (items : List String) : List String :=
  deduplicate_aux [] items

/-- `TikiCrawler.filter_uncrawled_products` (tiki_crawler.py lines 47-58):
when something was already crawled, keep only the ids not in the crawled
set (the set is modelled as a list, membership being all that is used). -/
def filter_uncrawled_products (product_ids already_crawled : List String) :
    List String :=
  if already_crawled.isEmpty then product_ids
  else product_ids.filter (fun pid => !already_crawled.contains pid)

/-- `DeduplicationUtils.get_already_crawled_ids` (deduplication.py lines
14-33).  Each persisted product is represented by the value of its `id`
key — the only key this function reads; a file is the list of its
products' id values.  Truthy ids are collected as `str(product['id'])`. -/
def get_already_crawled_ids (files : List (List PVal)) : List String :=
  (files.flatten.filter pyTruthy).map pyStr

lemma deduplicate_aux_sublist (l : List String) :
    ∀ seen, List.Sublist (deduplicate_aux seen l) l := by
  induction l with
  | nil => intro seen; rw [deduplicate_aux]
  | cons x rest ih =>
    intro seen
    rw [deduplicate_aux]
    by_cases h : seen.contains x = true
    · rw [if_pos h]
      exact List.Sublist.cons x (ih seen)
    · rw [if_neg h]
      exact List.Sublist.cons₂ x (ih (x :: seen))

lemma deduplicate_list_sublist (l : List String) :
    List.Sublist (deduplicate_list l) l :=
  deduplicate_aux_sublist l []

lemma mem_deduplicate_aux (l : List String) :
    ∀ seen a, a ∈ deduplicate_aux seen l ↔ a ∈ l ∧ a ∉ seen := by
  induction l with
  | nil => intro seen a; rw [deduplicate_aux]; simp
  | cons x rest ih =>
    intro seen a
    rw [deduplicate_aux]
    by_cases h : seen.contains x = true
    · rw [if_pos h]
      rw [ih seen a]
      constructor
      · rintro ⟨h1, h2⟩
        exact ⟨List.mem_cons_of_mem x h1, h2⟩
      · rintro ⟨h1, h2⟩
        rcases List.mem_cons.mp h1 with h3 | h3
        · subst h3
          have hx : a ∈ seen := by simpa using h
          exact absurd hx h2
        · exact ⟨h3, h2⟩
    · rw [if_neg h]
      constructor
      · intro h1
        rcases List.mem_cons.mp h1 with h3 | h3
        · subst h3
          refine ⟨List.mem_cons_self _ _, fun hcon => ?_⟩
          exact h (by simpa using hcon)
        · have := (ih (x :: seen) a).mp h3
          exact ⟨List.mem_cons_of_mem x this.1,
            fun hcon => this.2 (List.mem_cons_of_mem x hcon)⟩
      · rintro ⟨h1, h2⟩
        rcases List.mem_cons.mp h1 with h3 | h3
        · exact h3 ▸ List.mem_cons_self _ _
        · by_cases hax : a = x
          · exact hax ▸ List.mem_cons_self _ _
          · apply List.mem_cons_of_mem
            exact (ih (x :: seen) a).mpr ⟨h3, by simp [hax, h2]⟩

lemma mem_deduplicate_list (l : List String) (a : String) :
    a ∈ deduplicate_list l ↔ a ∈ l := by
  rw [deduplicate_list, mem_deduplicate_aux l [] a]
  simp

lemma filter_uncrawled_eq (product_ids already_crawled : List String) :
    filter_uncrawled_products product_ids already_crawled
      = product_ids.filter (fun pid => !already_crawled.contains pid) := by
  rw [filter_uncrawled_products]
  by_cases h : already_crawled.isEmpty = true
  · rw [if_pos h]
    have hnil : already_crawled = [] := by
      cases already_crawled
      · rfl
      · simp at h
    subst hnil
    symm
    apply List.filter_eq_self.mpr
    intro a _
    simp
  · rw [if_neg h]

/-- The contents of `products_<n>.json` in the modelled output folder:
`os.path.exists` and reading, keyed by the file's number. -/
def folder_lookup (folder : List (Nat × List PVal)) :
    Nat → Option (List PVal) :=
  fun n => (folder.find? (fun e => e.1 == n)).map Prod.snd

/-- The pending id list computed by `TikiCrawler.crawl` steps
(tiki_crawler.py lines 154-156): deduplicate the input, then drop the
already-crawled ids scanned from the output folder. -/
def crawl_pending (L : List String) (folder : List (Nat × List PVal)) :
    List String :=
  filter_uncrawled_products (deduplicate_list L)
    (get_already_crawled_ids (folder.map Prod.snd))

/-- The whole-run composition for claim C2: pending ids batched and driven
through the batch loop against the existing output folder.  `fetchOne`
gives each fetch's outcome, `some v` being a success whose persisted
record carries id value `v`. -/
def crawl_run (fetchOne : String → Option PVal) (b : Nat) (L : List String)
    (folder : List (Nat × List PVal)) :
    (Nat → Option (List PVal)) × List String :=
  runBatches fetchOne (batchesOf b (crawl_pending L folder)) 0
    (folder_lookup folder) []

lemma runBatches_log_sublist (fetchOne : String → Option ρ) :
    ∀ (batches : List (List String)) (idx : Nat)
      (fs : Nat → Option (List ρ)) (log : List String),
      ∃ t, (runBatches fetchOne batches idx fs log).2 = log ++ t ∧
        List.Sublist t batches.flatten := by
  intro batches
  induction batches with
  | nil =>
    intro idx fs log
    exact ⟨[], by simp [runBatches], by simp⟩
  | cons bids rest ih =>
    intro idx fs log
    rw [runBatches]
    by_cases hskip : (fs (idx + 1)).isSome = true
    · rw [if_pos hskip]
      obtain ⟨t, ht, hsub⟩ := ih (idx + 1) fs log
      refine ⟨t, ht, ?_⟩
      rw [List.flatten_cons]
      exact List.Sublist.trans hsub (List.sublist_append_right bids rest.flatten)
    · rw [if_neg hskip]
      obtain ⟨t, ht, hsub⟩ := ih (idx + 1)
        (fsUpdate fs (idx + 1) (bids.filterMap fetchOne)) (log ++ bids)
      refine ⟨bids ++ t, by rw [ht, List.append_assoc], ?_⟩
      rw [List.flatten_cons]
      exact List.Sublist.append_left hsub bids

lemma runBatches_log_all (fetchOne : String → Option ρ) :
    ∀ (batches : List (List String)) (idx : Nat)
      (fs : Nat → Option (List ρ)) (log : List String),
      (∀ k, k < batches.length → fs (idx + k + 1) = Option.none) →
      (runBatches fetchOne batches idx fs log).2 = log ++ batches.flatten := by
  intro batches
  induction batches with
  | nil => intro idx fs log _; simp [runBatches]
  | cons bids rest ih =>
    intro idx fs log hfs
    have hnone : fs (idx + 1) = Option.none := by
      have := hfs 0 (by simp)
      rwa [show idx + 0 + 1 = idx + 1 by omega] at this
    rw [runBatches, if_neg (by simp [hnone])]
    rw [ih (idx + 1) _ (log ++ bids) ?hrest]
    · rw [List.flatten_cons, List.append_assoc]
    case hrest =>
      intro k hk
      rw [fsUpdate, if_neg (by omega)]
      have := hfs (k + 1) (by simpa using Nat.succ_lt_succ hk)
      rwa [show idx + (k + 1) + 1 = idx + 1 + k + 1 by omega] at this

/-- C2 counterexample, refuting the claim's "only C is processed": with
`products_1.json` covering S = `{A, B}` and input `L = [A, B, C]`, the
pending list is `[C]`, but its first (and only) new batch is renumbered to
index 0 and hence to the pre-existing file `products_1.json`, so the batch
is skipped and `C` is never fetched: the run fetches nothing at all. -/
theorem resume_filter_claim_counterexample :
    crawl_pending ["A", "B", "C"] [(1, [PVal.str "A", PVal.str "B"])]
      = ["C"] ∧
    (crawl_run (fun pid => some (PVal.str pid)) 2 ["A", "B", "C"]
      [(1, [PVal.str "A", PVal.str "B"])]).2 = [] ∧
    "C" ∉ (crawl_run (fun pid => some (PVal.str pid)) 2 ["A", "B", "C"]
      [(1, [PVal.str "A", PVal.str "B"])]).2 := by
  have h1 : crawl_pending ["A", "B", "C"] [(1, [PVal.str "A", PVal.str "B"])]
      = ["C"] := by decide
  have hbatch : batchesOf 2 ["C"] = [["C"]] := by
    rw [batchesOf, dif_neg (by decide)]
    rw [show (["C"] : List String).drop 2 = [] from rfl, batchesOf_nil]
    rfl
  have h2 : (crawl_run (fun pid => some (PVal.str pid)) 2 ["A", "B", "C"]
      [(1, [PVal.str "A", PVal.str "B"])]).2 = [] := by
    rw [crawl_run, h1, hbatch]
    rfl
  exact ⟨h1, h2, by rw [h2]; simp⟩

/-- C2 (amended).  Resume filtering: the pending list is exactly the
distinct ids of `L` outside the already-crawled set `S`, in original
relative order; whatever is fetched is a subsequence of that pending list
(so nothing of `S` is ever fetched) and, when the fetched records carry
the ids they were requested for, no newly written BatchUnit holds an id of
`S`.  The pending ids are all actually fetched only under the additional
hypothesis that none of the renumbered batch files already exists —
a pre-existing `products_<k+1>.json` silently suppresses the fetch of the
pending ids renumbered to batch `k`. -/
theorem resume_filter_spec (L : List String)
    (folder : List (Nat × List PVal)) (b : Nat)
    (fetchOne : String → Option PVal) (hb : 0 < b) :
    List.Sublist (crawl_pending L folder) L ∧
    (∀ pid ∈ crawl_pending L folder,
      pid ∈ L ∧ pid ∉ get_already_crawled_ids (folder.map Prod.snd)) ∧
    (∀ pid ∈ L, pid ∉ get_already_crawled_ids (folder.map Prod.snd) →
      pid ∈ crawl_pending L folder) ∧
    List.Sublist (crawl_run fetchOne b L folder).2 (crawl_pending L folder) ∧
    (∀ pid ∈ (crawl_run fetchOne b L folder).2,
      pid ∉ get_already_crawled_ids (folder.map Prod.snd)) ∧
    ((∀ pid v, fetchOne pid = some v → pyStr v = pid) →
      ∀ n content, (crawl_run fetchOne b L folder).1 n = some content →
        folder_lookup folder n = Option.none →
        ∀ v ∈ content,
          pyStr v ∉ get_already_crawled_ids (folder.map Prod.snd)) ∧
    ((∀ k, k < (batchesOf b (crawl_pending L folder)).length →
        folder_lookup folder (k + 1) = Option.none) →
      (crawl_run fetchOne b L folder).2 = crawl_pending L folder) := by
  have hpend_mem : ∀ pid ∈ crawl_pending L folder,
      pid ∈ L ∧ pid ∉ get_already_crawled_ids (folder.map Prod.snd) := by
    intro pid hpid
    rw [crawl_pending, filter_uncrawled_eq] at hpid
    have h1 := List.mem_of_mem_filter hpid
    have h2 := List.of_mem_filter hpid
    refine ⟨(mem_deduplicate_list L pid).mp h1, ?_⟩
    simpa using h2
  have hlog_sub : List.Sublist (crawl_run fetchOne b L folder).2
      (crawl_pending L folder) := by
    obtain ⟨t, ht, hsub⟩ := runBatches_log_sublist fetchOne
      (batchesOf b (crawl_pending L folder)) 0 (folder_lookup folder) []
    rw [crawl_run, ht]
    rw [batchesOf_flatten b hb] at hsub
    simpa using hsub
  refine ⟨?_, hpend_mem, ?_, hlog_sub, ?_, ?_, ?_⟩
  · rw [crawl_pending, filter_uncrawled_eq]
    exact List.Sublist.trans (List.filter_sublist _)
      (deduplicate_list_sublist L)
  · intro pid hpid hnot
    rw [crawl_pending, filter_uncrawled_eq]
    apply List.mem_filter.mpr
    exact ⟨(mem_deduplicate_list L pid).mpr hpid, by simpa using hnot⟩
  · intro pid hpid
    exact (hpend_mem pid (hlog_sub.subset hpid)).2
  · intro hhonest n content hfile hnone v hv
    rcases runBatches_files_mem fetchOne (batchesOf b (crawl_pending L folder))
      0 (folder_lookup folder) [] n content hfile with h1 | ⟨batch, hbatch, hc⟩
    · rw [hnone] at h1; cases h1
    · subst hc
      obtain ⟨pid, hpid, hfetch⟩ := List.mem_filterMap.mp hv
      rw [hhonest pid v hfetch]
      have hpend : pid ∈ crawl_pending L folder := by
        rw [← batchesOf_flatten b hb (crawl_pending L folder)]
        exact List.mem_flatten.mpr ⟨batch, hbatch, hpid⟩
      exact (hpend_mem pid hpend).2
  · intro hfree
    rw [crawl_run]
    rw [runBatches_log_all fetchOne _ 0 (folder_lookup folder) []
      (fun k hk => by
        rw [show 0 + k + 1 = k + 1 by omega]
        exact hfree k hk)]
    rw [batchesOf_flatten b hb]
    rfl

/-- Witness for C2's amended theorem on a fresh folder. -/
theorem resume_filter_spec_witness :
    List.Sublist (crawl_pending ["A", "A", "B"] []) ["A", "A", "B"] ∧
    (∀ pid ∈ crawl_pending ["A", "A", "B"] [],
      pid ∈ ["A", "A", "B"] ∧
        pid ∉ get_already_crawled_ids (([] : List (Nat × List PVal)).map
          Prod.snd)) ∧
    (∀ pid ∈ ["A", "A", "B"],
      pid ∉ get_already_crawled_ids (([] : List (Nat × List PVal)).map
        Prod.snd) →
      pid ∈ crawl_pending ["A", "A", "B"] []) ∧
    List.Sublist
      (crawl_run (fun pid => some (PVal.str pid)) 2 ["A", "A", "B"] []).2
      (crawl_pending ["A", "A", "B"] []) ∧
    (∀ pid ∈ (crawl_run (fun pid => some (PVal.str pid)) 2
        ["A", "A", "B"] []).2,
      pid ∉ get_already_crawled_ids (([] : List (Nat × List PVal)).map
        Prod.snd)) ∧
    ((∀ pid v, (fun pid => some (PVal.str pid)) pid = some v →
        pyStr v = pid) →
      ∀ n content,
        (crawl_run (fun pid => some (PVal.str pid)) 2 ["A", "A", "B"] []).1 n
          = some content →
        folder_lookup [] n = Option.none →
        ∀ v ∈ content,
          pyStr v ∉ get_already_crawled_ids (([] : List (Nat × List PVal)).map
            Prod.snd)) ∧
    ((∀ k, k < (batchesOf 2 (crawl_pending ["A", "A", "B"] [])).length →
        folder_lookup [] (k + 1) = Option.none) →
      (crawl_run (fun pid => some (PVal.str pid)) 2 ["A", "A", "B"] []).2
        = crawl_pending ["A", "A", "B"] []) :=
  resume_filter_spec ["A", "A", "B"] [] 2 (fun pid => some (PVal.str pid))
    (by omega)

/-- The per-partition merge of `FileHandler.save_failed_products_by_error`
(file_handler.py lines 34-46): keep the existing records and append only
those new records whose `product_id` is not already present. -/
def merge_failed (existing_failed products : List FailureRecord) :
    List FailureRecord :=
  existing_failed ++ products.filter
    (fun p => !((existing_failed.map (fun item => item.product_id)).contains
      p.product_id))

/-- The run's error codes in first-occurrence order: the key order of the
`defaultdict(list)` grouping (file_handler.py lines 25-28). -/
def group_error_codes (failed_products : List FailureRecord) : List String :=
  deduplicate_list (failed_products.map (fun p => p.error_code))

/-- `FileHandler.save_failed_products_by_error` (file_handler.py lines
19-68) over a modelled folder: `partitions` maps the lowercased filename
key of `failed_<kind>.json` to its records, `all_file` is
`all_failed_products.json`.  Nothing is touched when the failure list is
empty; otherwise each error-code group is merged (dedup by `product_id`)
into its partition, and the consolidated file is overwritten with the
failure list exactly as given. -/
def save_failed_products_by_error
    (partitions : String → Option (List FailureRecord))
    (all_file : Option (List FailureRecord))
    (failed_products : List FailureRecord) :
    (String → Option (List FailureRecord)) × Option (List FailureRecord) :=
  if failed_products.isEmpty then (partitions, all_file)
  else
    ((group_error_codes failed_products).foldl
      (fun fs code => fun k =>
        if k = pyLower code then
          some (merge_failed ((fs (pyLower code)).getD [])
            (failed_products.filter (fun p => p.error_code == code)))
        else fs k)
      partitions,
      some failed_products)

/-- The failure replay of `FileHandler.load_existing_results`
(file_handler.py lines 89-102): every record of every `failed_*.json`
file, in file order, is appended to the tracker's `failed_products`. -/
def load_existing_failed (failed_files : List (List FailureRecord)) :
    List FailureRecord :=
  failed_files.flatten

/-- The tracker's failure list when `crawl` reaches its final save
(tiki_crawler.py lines 155, 202): the records replayed at load time
followed by the failures newly recorded by this run's fetches. -/
def run_end_failed_products (replayed new_failures : List FailureRecord) :
    List FailureRecord :=
  replayed ++ new_failures

/-- Repeated runs merged into one error_kind partition file: fold the
per-run failure groups for that kind into the persisted partition. -/
def merge_failed_runs (existing : List FailureRecord)
    (runs : List (List FailureRecord)) : List FailureRecord :=
  runs.foldl merge_failed existing

lemma merge_failed_frame (E G : List FailureRecord) (q : String)
    (hq : q ∈ E.map (fun r => r.product_id)) :
    (merge_failed E G).filter (fun r => r.product_id == q)
      = E.filter (fun r => r.product_id == q) := by
  rw [merge_failed, List.filter_append]
  have hnil : (G.filter
      (fun p => !((E.map (fun item => item.product_id)).contains
        p.product_id))).filter (fun r => r.product_id == q) = [] := by
    apply List.filter_eq_nil_iff.mpr
    intro p hp
    have h1 := List.of_mem_filter hp
    intro hcon
    have h2 : p.product_id = q := by simpa using hcon
    have h3 : p.product_id ∉ E.map (fun item => item.product_id) := by
      simpa using h1
    rw [h2] at h3
    exact h3 hq
  rw [hnil, List.append_nil]

lemma merge_failed_runs_frame (q : String) :
    ∀ (runs : List (List FailureRecord)) (E : List FailureRecord),
      q ∈ E.map (fun r => r.product_id) →
      (merge_failed_runs E runs).filter (fun r => r.product_id == q)
        = E.filter (fun r => r.product_id == q) := by
  intro runs
  induction runs with
  | nil => intro E _; rfl
  | cons G rest ih =>
    intro E hq
    have hq2 : q ∈ (merge_failed E G).map (fun r => r.product_id) := by
      rw [merge_failed, List.map_append]
      exact List.mem_append_left _ hq
    have step : merge_failed_runs E (G :: rest)
        = merge_failed_runs (merge_failed E G) rest := rfl
    rw [step, ih (merge_failed E G) hq2]
    exact merge_failed_frame E G q hq

lemma merge_failed_nodup (E G : List FailureRecord)
    (hE : (E.map (fun r => r.product_id)).Nodup)
    (hG : ((G.filter
      (fun p => !((E.map (fun item => item.product_id)).contains
        p.product_id))).map (fun r => r.product_id)).Nodup) :
    ((merge_failed E G).map (fun r => r.product_id)).Nodup := by
  rw [merge_failed, List.map_append]
  apply List.nodup_append.mpr
  refine ⟨hE, hG, ?_⟩
  intro a haE haG
  obtain ⟨p, hp, hpid⟩ := List.mem_map.mp haG
  have h1 := List.of_mem_filter hp
  have h3 : p.product_id ∉ E.map (fun item => item.product_id) := by
    simpa using h1
  rw [hpid] at h3
  exact h3 haE

lemma merge_failed_runs_nodup :
    ∀ (runs : List (List FailureRecord)) (F : List FailureRecord),
      (F.map (fun r => r.product_id)).Nodup →
      (∀ i, i < runs.length →
        (((runs.getD i []).filter
          (fun p => !(((merge_failed_runs F (runs.take i)).map
            (fun r => r.product_id)).contains p.product_id))).map
          (fun r => r.product_id)).Nodup) →
      ((merge_failed_runs F runs).map (fun r => r.product_id)).Nodup := by
  intro runs
  induction runs with
  | nil => intro F hF _; exact hF
  | cons G rest ih =>
    intro F hF hfresh
    have h0 := hfresh 0 (by simp)
    rw [List.take_zero, List.getD_cons_zero] at h0
    have hF2 : ((merge_failed F G).map (fun r => r.product_id)).Nodup :=
      merge_failed_nodup F G hF h0
    have step : merge_failed_runs F (G :: rest)
        = merge_failed_runs (merge_failed F G) rest := rfl
    rw [step]
    apply ih (merge_failed F G) hF2
    intro i hi
    have h1 := hfresh (i + 1) (by simpa using Nat.succ_lt_succ hi)
    rw [List.take_succ_cons, List.getD_cons_succ] at h1
    exact h1

lemma nodup_deduplicate_aux (l : List String) :
    ∀ seen, (deduplicate_aux seen l).Nodup := by
  induction l with
  | nil => intro seen; rw [deduplicate_aux]; exact List.nodup_nil
  | cons x rest ih =>
    intro seen
    rw [deduplicate_aux]
    by_cases h : seen.contains x = true
    · rw [if_pos h]; exact ih seen
    · rw [if_neg h]
      apply List.Nodup.cons
      · intro hcon
        have := (mem_deduplicate_aux rest (x :: seen) x).mp hcon
        exact this.2 (List.mem_cons_self _ _)
      · exact ih (x :: seen)

lemma nodup_group_error_codes (failed_products : List FailureRecord) :
    (group_error_codes failed_products).Nodup :=
  nodup_deduplicate_aux _ []

lemma save_fold_untouched (failed_products : List FailureRecord)
    (code : String) :
    ∀ (keys : List String) (fs : String → Option (List FailureRecord)),
      (∀ c ∈ keys, pyLower c ≠ pyLower code) →
      (keys.foldl
        (fun fs c => fun k =>
          if k = pyLower c then
            some (merge_failed ((fs (pyLower c)).getD [])
              (failed_products.filter (fun p => p.error_code == c)))
          else fs k)
        fs) (pyLower code) = fs (pyLower code) := by
  intro keys
  induction keys with
  | nil => intro fs _; rfl
  | cons c keys ih =>
    intro fs hk
    rw [List.foldl_cons]
    rw [ih _ (fun x hx => hk x (List.mem_cons_of_mem c hx))]
    rw [if_neg ?_]
    exact fun hcon => hk c (List.mem_cons_self _ _) hcon.symm

lemma save_fold_hit (failed_products : List FailureRecord) (code : String) :
    ∀ (keys : List String) (fs : String → Option (List FailureRecord)),
      keys.Nodup → code ∈ keys →
      (∀ c ∈ keys, pyLower c = pyLower code → c = code) →
      (keys.foldl
        (fun fs c => fun k =>
          if k = pyLower c then
            some (merge_failed ((fs (pyLower c)).getD [])
              (failed_products.filter (fun p => p.error_code == c)))
          else fs k)
        fs) (pyLower code)
      = some (merge_failed ((fs (pyLower code)).getD [])
          (failed_products.filter (fun p => p.error_code == code))) := by
  intro keys
  induction keys with
  | nil => intro fs _ hmem _; cases hmem
  | cons c keys ih =>
    intro fs hnodup hmem huniq
    rw [List.foldl_cons]
    by_cases hc : c = code
    · subst hc
      have hrest : ∀ x ∈ keys, pyLower x ≠ pyLower c := by
        intro x hx hcon
        have := huniq x (List.mem_cons_of_mem c hx) hcon
        subst this
        exact (List.nodup_cons.mp hnodup).1 hx
      rw [save_fold_untouched failed_products c keys _ hrest]
      rw [if_pos rfl]
    · have hmem2 : code ∈ keys := by
        rcases List.mem_cons.mp hmem with h | h
        · exact absurd h.symm hc
        · exact h
      have hlow : pyLower c ≠ pyLower code := by
        intro hcon
        exact hc (huniq c (List.mem_cons_self _ _) hcon)
      rw [ih _ (List.nodup_cons.mp hnodup).2 hmem2
        (fun x hx => huniq x (List.mem_cons_of_mem c hx))]
      rw [if_neg (fun hcon => hlow hcon.symm)]

lemma group_error_codes_mem_ne_nil {failed_products : List FailureRecord}
    {code : String} (h : code ∈ group_error_codes failed_products) :
    failed_products.isEmpty = false := by
  cases failed_products with
  | nil =>
    rw [group_error_codes] at h
    cases h
  | cons p rest => rfl

/-- C4. Partition-file dedup by `product_id`: (i) one merge never re-adds
a record whose `product_id` is already persisted — the records of such an
id are exactly the persisted ones, (ii) likewise across any sequence of
merged runs, (iii) when each run's group adds at most one fresh record per
`product_id` (records duplicated inside a group only re-fail persisted
ids), the partition holds at most one record per `product_id` after any
sequence of runs, and (iv) `save_failed_products_by_error` indeed rewrites
the partition of an error kind of the run with exactly this merge of its
persisted records and the run's group for that kind. -/
theorem failed_partition_dedup :
    (∀ (E G : List FailureRecord) (q : String),
      q ∈ E.map (fun r => r.product_id) →
      (merge_failed E G).filter (fun r => r.product_id == q)
        = E.filter (fun r => r.product_id == q)) ∧
    (∀ (q : String) (runs : List (List FailureRecord))
      (E : List FailureRecord),
      q ∈ E.map (fun r => r.product_id) →
      (merge_failed_runs E runs).filter (fun r => r.product_id == q)
        = E.filter (fun r => r.product_id == q)) ∧
    (∀ (runs : List (List FailureRecord)) (F : List FailureRecord),
      (F.map (fun r => r.product_id)).Nodup →
      (∀ i, i < runs.length →
        (((runs.getD i []).filter
          (fun p => !(((merge_failed_runs F (runs.take i)).map
            (fun r => r.product_id)).contains p.product_id))).map
          (fun r => r.product_id)).Nodup) →
      ((merge_failed_runs F runs).map (fun r => r.product_id)).Nodup) ∧
    (∀ (partitions : String → Option (List FailureRecord))
      (all_file : Option (List FailureRecord))
      (failed_products : List FailureRecord) (code : String),
      code ∈ group_error_codes failed_products →
      (∀ c ∈ group_error_codes failed_products,
        pyLower c = pyLower code → c = code) →
      (save_failed_products_by_error partitions all_file failed_products).1
          (pyLower code)
        = some (merge_failed ((partitions (pyLower code)).getD [])
            (failed_products.filter (fun p => p.error_code == code)))) := by
  refine ⟨merge_failed_frame, merge_failed_runs_frame,
    merge_failed_runs_nodup, ?_⟩
  intro partitions all_file failed_products code hmem huniq
  rw [save_failed_products_by_error,
    if_neg (by rw [group_error_codes_mem_ne_nil hmem]; simp)]
  exact save_fold_hit failed_products code (group_error_codes failed_products)
    partitions (nodup_group_error_codes failed_products) hmem huniq

/-- Witness for C4: id "A" re-fails with kind 500 across two runs (the
second run's group holds both the replayed record and the fresh
re-failure) and the partition keeps at most one record per id; the save
writes the 500 partition as the dedup merge. -/
theorem failed_partition_dedup_witness :
    ((merge_failed_runs []
        [[{ product_id := "A", error_code := "500",
            error_message := "HTTP 500", timestamp := "t0" }],
         [{ product_id := "A", error_code := "500",
            error_message := "HTTP 500", timestamp := "t0" },
          { product_id := "A", error_code := "500",
            error_message := "HTTP 500", timestamp := "t1" },
          { product_id := "B", error_code := "500",
            error_message := "HTTP 500", timestamp := "t1" }]]).map
      (fun r => r.product_id)).Nodup ∧
    (save_failed_products_by_error (fun _ => Option.none) Option.none
        [{ product_id := "A", error_code := "500",
           error_message := "HTTP 500", timestamp := "t0" }]).1
        (pyLower "500")
      = some (merge_failed
          ((Option.none : Option (List FailureRecord)).getD [])
          (([{ product_id := "A", error_code := "500",
               error_message := "HTTP 500", timestamp := "t0" }] :
              List FailureRecord).filter
            (fun p => p.error_code == "500"))) :=
  ⟨failed_partition_dedup.2.2.1
      [[{ product_id := "A", error_code := "500",
          error_message := "HTTP 500", timestamp := "t0" }],
       [{ product_id := "A", error_code := "500",
          error_message := "HTTP 500", timestamp := "t0" },
        { product_id := "A", error_code := "500",
          error_message := "HTTP 500", timestamp := "t1" },
        { product_id := "B", error_code := "500",
          error_message := "HTTP 500", timestamp := "t1" }]]
      [] (by decide) (by decide),
   failed_partition_dedup.2.2.2 (fun _ => Option.none) Option.none
      [{ product_id := "A", error_code := "500",
         error_message := "HTTP 500", timestamp := "t0" }]
      "500" (by decide) (by decide)⟩

/-- C6 counterexample: `load_existing_results` replays the persisted
`failed_500.json` record for "A" into the tracker's failure list, so a
later run with one new failure "B" overwrites `all_failed_products.json`
with both records — not with this run's records only. -/
theorem all_failed_this_run_counterexample :
    (save_failed_products_by_error (fun _ => Option.none) Option.none
        (run_end_failed_products
          (load_existing_failed
            [[{ product_id := "A", error_code := "500",
                error_message := "HTTP 500", timestamp := "t0" }]])
          [{ product_id := "B", error_code := "500",
             error_message := "HTTP 500", timestamp := "t1" }])).2
      = some [{ product_id := "A", error_code := "500",
                error_message := "HTTP 500", timestamp := "t0" },
              { product_id := "B", error_code := "500",
                error_message := "HTTP 500", timestamp := "t1" }] ∧
    (some [{ product_id := "A", error_code := "500",
             error_message := "HTTP 500", timestamp := "t0" },
           { product_id := "B", error_code := "500",
             error_message := "HTTP 500", timestamp := "t1" }] :
        Option (List FailureRecord))
      ≠ some [{ product_id := "B", error_code := "500",
                error_message := "HTTP 500", timestamp := "t1" }] := by
  refine ⟨rfl, by decide⟩

/-- C6 (amended).  `all_failed_products.json` is overwritten on every run
that reaches the save with a nonempty tracker failure list: its new
content is exactly that list — the failures replayed from the persisted
`failed_<kind>.json` partitions at load time followed by this run's new
failures — regardless of the file's previous content (no merge with it). -/
theorem all_failed_overwritten_with_tracker_list
    (partitions : String → Option (List FailureRecord))
    (all_prev : Option (List FailureRecord))
    (failed_files : List (List FailureRecord))
    (new_failures : List FailureRecord)
    (hne : run_end_failed_products (load_existing_failed failed_files)
      new_failures ≠ []) :
    (save_failed_products_by_error partitions all_prev
        (run_end_failed_products (load_existing_failed failed_files)
          new_failures)).2
      = some (load_existing_failed failed_files ++ new_failures) := by
  rw [save_failed_products_by_error,
    if_neg (by simpa [List.isEmpty_iff] using hne)]
  rfl

/-- Witness for C6's amended theorem. -/
theorem all_failed_overwritten_with_tracker_list_witness :
    (save_failed_products_by_error (fun _ => Option.none)
        (some [{ product_id := "Z", error_code := "404",
                 error_message := "HTTP 404", timestamp := "s0" }])
        (run_end_failed_products
          (load_existing_failed
            [[{ product_id := "A", error_code := "500",
                error_message := "HTTP 500", timestamp := "t0" }]])
          [{ product_id := "B", error_code := "500",
             error_message := "HTTP 500", timestamp := "t1" }])).2
      = some (load_existing_failed
          [[{ product_id := "A", error_code := "500",
              error_message := "HTTP 500", timestamp := "t0" }]] ++
          [{ product_id := "B", error_code := "500",
             error_message := "HTTP 500", timestamp := "t1" }]) :=
  all_failed_overwritten_with_tracker_list (fun _ => Option.none)
    (some [{ product_id := "Z", error_code := "404",
             error_message := "HTTP 404", timestamp := "s0" }])
    [[{ product_id := "A", error_code := "500",
        error_message := "HTTP 500", timestamp := "t0" }]]
    [{ product_id := "B", error_code := "500",
       error_message := "HTTP 500", timestamp := "t1" }]
    (by decide)
